import Mathlib

/-!
Shallow embedding of the Brother P-Touch P700 driver
(`brother_label_printer/printers/brother_pt700.py`) and proofs about it.

Bytes are modelled as natural numbers (`Nat`), byte strings as `List Nat`.
Python integers are unbounded, so `Nat` matches `int.from_bytes` arithmetic
exactly.  Fallible Python code (statements that can raise) is modelled with
`Except`/`Option` results.  The concurrent job controller is modelled as a
deterministic trace-producing function over a discrete 100ms clock: the
shared `self.status` field written by the background poller is abstracted as
a function `Nat → Status` giving its value at each tick.
-/

namespace PT700

/-- `int.from_bytes(b, byteorder='big')`: big-endian bytes to a natural number. -/
def fromBytesBE (l : List Nat) : Nat :=
  l.foldl (fun a b => a * 256 + b) 0

/-- `n.to_bytes(k, byteorder='big')` after its range check has passed:
serialize `n` into exactly `k` big-endian bytes (zero-extended). -/
def natToBytesBE : Nat → Nat → List Nat
  | _, 0 => []
  | n, k + 1 => natToBytesBE (n / 256) k ++ [n % 256]

/-- `struct.pack("<H", n)`: two little-endian bytes (caller checks `n < 2^16`). -/
def toBytesLE2 (n : Nat) : List Nat :=
  [n % 256, n / 256 % 256]

theorem natToBytesBE_length (n k : Nat) : (natToBytesBE n k).length = k := by
  induction k generalizing n with
  | zero => rfl
  | succ k ih => simp [natToBytesBE, ih]

theorem fromBytesBE_append_singleton (l : List Nat) (b : Nat) :
    fromBytesBE (l ++ [b]) = fromBytesBE l * 256 + b := by
  simp [fromBytesBE]

theorem fromBytesBE_natToBytesBE (k : Nat) :
    ∀ n, n < 256 ^ k → fromBytesBE (natToBytesBE n k) = n := by
  induction k with
  | zero =>
    intro n hn
    interval_cases n
    rfl
  | succ k ih =>
    intro n hn
    have hdiv : n / 256 < 256 ^ k := by
      rw [Nat.div_lt_iff_lt_mul (by norm_num)]
      calc n < 256 ^ (k + 1) := hn
        _ = 256 ^ k * 256 := by ring
    rw [natToBytesBE, fromBytesBE_append_singleton, ih _ hdiv]
    omega

/-!
## PackBits run-length compression

The driver uses the external `packbits` package; `encode_line` calls
`packbits.encode` on the 16-byte padded scanline.  The package's
`encode`/`decode` are embedded below.  The Python encoder is one pass over
positions `0 .. len-2`, comparing `data[pos]` with `data[pos+1]`, holding
either a literal buffer (`RAW`) or a repeat count (`RLE`), and appending
finished codewords to a result accumulator; since every emission appends to
the accumulator, the loop is written here as a function returning the emitted
suffix directly.
-/

/-- Encoder state: `raw buf` is the pending literal buffer, `rle c` is a
pending run of `c` repeats (the repeated byte is the one at the current
position). -/
inductive PBState where
  | raw (buf : List Nat)
  | rle (c : Nat)

/-- `finish_raw`: emit a literal codeword (header `len-1`, then the bytes);
nothing if the buffer is empty. -/
def finishRaw0 (buf : List Nat) : List Nat :=
  if buf = [] then [] else (buf.length - 1) :: buf

/-- `finish_rle`: emit a run codeword (header `256-(c-1)`, then the byte at
the current position). -/
def finishRle0 (c cur : Nat) : List Nat :=
  [256 - (c - 1), cur]

/-- The encoder's main loop, from the Python `while pos < len(data)-1` walk
plus the trailing flush.  The list argument is the suffix of the input
starting at the current position. -/
def pbLoop : List Nat → PBState → List Nat
  | [], _ => []
  | [last], .raw buf => finishRaw0 (buf ++ [last])
  | [last], .rle c => finishRle0 (c + 1) last
  | cur :: next :: rest, .raw buf =>
    if cur = next then
      finishRaw0 buf ++ pbLoop (next :: rest) (.rle 1)
    else
      if buf.length = 127 then
        finishRaw0 buf ++ pbLoop (next :: rest) (.raw [cur])
      else
        pbLoop (next :: rest) (.raw (buf ++ [cur]))
  | cur :: next :: rest, .rle c =>
    if cur = next then
      if c = 127 then
        finishRle0 c cur ++ pbLoop (next :: rest) (.rle 1)
      else
        pbLoop (next :: rest) (.rle (c + 1))
    else
      finishRle0 (c + 1) cur ++ pbLoop (next :: rest) (.raw [])

/-- `packbits.encode`. -/
def packbitsEncode (data : List Nat) : List Nat :=
  match data with
  | [] => []
  | [b] => [0, b]
  | _ :: _ :: _ => pbLoop data (.raw [])

/-- `packbits.decode`: headers `0..127` introduce `header+1` literal bytes,
`128` is a no-op, `129..255` (two's-complement `-127..-1`) repeat the next
byte `257-header` times. -/
def packbitsDecode : List Nat → List Nat
  | [] => []
  | h :: rest =>
    if h ≤ 127 then
      rest.take (h + 1) ++ packbitsDecode (rest.drop (h + 1))
    else if h = 128 then
      packbitsDecode rest
    else
      match rest with
      | [] => []
      | b :: rest2 => List.replicate (257 - h) b ++ packbitsDecode rest2
  termination_by l => l.length
  decreasing_by
    · simp
      omega
    · simp
    · simp
      omega

theorem packbitsDecode_nil : packbitsDecode [] = [] := by
  rw [packbitsDecode.eq_def]

theorem packbitsDecode_cons (h : Nat) (rest : List Nat) :
    packbitsDecode (h :: rest) =
      if h ≤ 127 then rest.take (h + 1) ++ packbitsDecode (rest.drop (h + 1))
      else if h = 128 then packbitsDecode rest
      else
        match rest with
        | [] => []
        | b :: rest2 => List.replicate (257 - h) b ++ packbitsDecode rest2 := by
  rw [packbitsDecode.eq_def]

/-- A literal codeword followed by arbitrary further codewords decodes to its
payload followed by the decoding of the rest. -/
theorem packbitsDecode_raw (buf rest : List Nat) (h1 : buf ≠ []) (h2 : buf.length ≤ 128) :
    packbitsDecode ((buf.length - 1) :: (buf ++ rest)) = buf ++ packbitsDecode rest := by
  have hpos : 1 ≤ buf.length := List.length_pos.mpr h1
  rw [packbitsDecode_cons]
  rw [if_pos (by omega)]
  have hlen : buf.length - 1 + 1 = buf.length := by omega
  rw [hlen, List.take_left' rfl, List.drop_left' rfl]

/-- A run codeword followed by arbitrary further codewords decodes to its
repeated payload followed by the decoding of the rest. -/
theorem packbitsDecode_rle (c b : Nat) (rest : List Nat) (h1 : 2 ≤ c) (h2 : c ≤ 128) :
    packbitsDecode ((257 - c) :: b :: rest) = List.replicate c b ++ packbitsDecode rest := by
  rw [packbitsDecode_cons]
  rw [if_neg (by omega)]
  rw [if_neg (by omega)]
  have : 257 - (257 - c) = c := by omega
  rw [this]

/-- Validity of an encoder state, maintained by the main loop. -/
def stateOk : PBState → Prop
  | .raw buf => buf.length ≤ 127
  | .rle c => 1 ≤ c ∧ c ≤ 127

/-- The input bytes an encoder state still owes to the output; a pending run
repeats the byte at the current position. -/
def pending : PBState → Nat → List Nat
  | .raw buf, _ => buf
  | .rle c, cur => List.replicate c cur

/-- Decoding what the encoder loop emits recovers the pending bytes followed
by the unconsumed input. -/
theorem pbLoop_decode (l : List Nat) :
    ∀ st : PBState, l ≠ [] → stateOk st →
      packbitsDecode (pbLoop l st) = pending st (l.headD 0) ++ l := by
  induction l with
  | nil => intro st h; exact absurd rfl h
  | cons cur tail ih =>
    intro st _ hok
    match tail, st with
    | [], .raw buf =>
      have hne : buf ++ [cur] ≠ [] := by simp
      have hlen : (buf ++ [cur]).length ≤ 128 := by
        simp only [stateOk] at hok
        simp
        omega
      have hraw := packbitsDecode_raw (buf ++ [cur]) [] hne hlen
      rw [packbitsDecode_nil, List.append_nil] at hraw
      rw [pbLoop, finishRaw0, if_neg hne, hraw]
      simp [pending]
    | [], .rle c =>
      simp only [stateOk] at hok
      have hrle := packbitsDecode_rle (c + 1) cur [] (by omega) (by omega)
      rw [packbitsDecode_nil, List.append_nil] at hrle
      rw [pbLoop, finishRle0]
      have h257 : 256 - (c + 1 - 1) = 257 - (c + 1) := by omega
      rw [h257, hrle]
      simp [pending, List.replicate_succ']
    | next :: rest, .raw buf =>
      simp only [stateOk] at hok
      by_cases heq : cur = next
      · rw [pbLoop, if_pos heq]
        have ihx := ih (.rle 1) (by simp) (by simp [stateOk])
        by_cases hbuf : buf = []
        · subst hbuf
          have hfr : finishRaw0 ([] : List Nat) = [] := rfl
          rw [hfr, List.nil_append, ihx]
          simp [pending, heq]
        · rw [finishRaw0, if_neg hbuf, List.cons_append,
            packbitsDecode_raw buf _ hbuf (by omega), ihx]
          simp [pending, heq]
      · by_cases h127 : buf.length = 127
        · rw [pbLoop, if_neg heq, if_pos h127]
          have hbuf : buf ≠ [] := by
            intro h
            rw [h] at h127
            simp at h127
          have ihx := ih (.raw [cur]) (by simp) (by simp [stateOk])
          rw [finishRaw0, if_neg hbuf, List.cons_append,
            packbitsDecode_raw buf _ hbuf (by omega), ihx]
          simp [pending]
        · rw [pbLoop, if_neg heq, if_neg h127]
          have ihx := ih (.raw (buf ++ [cur])) (by simp) (by simp [stateOk]; omega)
          rw [ihx]
          simp [pending]
    | next :: rest, .rle c =>
      simp only [stateOk] at hok
      by_cases heq : cur = next
      · by_cases h127 : c = 127
        · rw [pbLoop, if_pos heq, if_pos h127]
          subst h127
          have ihx := ih (.rle 1) (by simp) (by simp [stateOk])
          simp only [finishRle0, List.cons_append, List.nil_append]
          have h257 : 256 - (127 - 1) = 257 - 127 := by omega
          rw [h257, packbitsDecode_rle 127 cur _ (by omega) (by omega), ihx]
          simp [pending, heq]
        · rw [pbLoop, if_pos heq, if_neg h127]
          have ihx := ih (.rle (c + 1)) (by simp) (by simp [stateOk]; omega)
          rw [ihx]
          simp [pending, heq, List.replicate_succ']
      · rw [pbLoop, if_neg heq]
        have ihx := ih (.raw []) (by simp) (by simp [stateOk])
        simp only [finishRle0, List.cons_append, List.nil_append]
        have h257 : 256 - (c + 1 - 1) = 257 - (c + 1) := by omega
        rw [h257, packbitsDecode_rle (c + 1) cur _ (by omega) (by omega), ihx]
        simp [pending, List.replicate_succ']

/-- Number of input bytes a state still owes to the output. -/
def pendingLen : PBState → Nat
  | .raw buf => buf.length
  | .rle c => c

theorem finishRaw0_length (buf : List Nat) (h : buf ≠ []) :
    (finishRaw0 buf).length = buf.length + 1 := by
  simp [finishRaw0, h]

/-- The loop emits at most two output bytes per input byte. -/
theorem pbLoop_length (l : List Nat) :
    ∀ st : PBState, (pbLoop l st).length ≤ 2 * (pendingLen st + l.length) := by
  induction l with
  | nil => intro st; simp [pbLoop]
  | cons cur tail ih =>
    intro st
    match tail, st with
    | [], .raw buf =>
      rw [pbLoop, finishRaw0_length (buf ++ [cur]) (by simp)]
      simp [pendingLen]
      omega
    | [], .rle c =>
      simp [pbLoop, finishRle0, pendingLen]
    | next :: rest, .raw buf =>
      by_cases heq : cur = next
      · rw [pbLoop, if_pos heq]
        have h2 := ih (.rle 1)
        simp only [pendingLen, List.length_cons] at h2 ⊢
        by_cases hbuf : buf = []
        · subst hbuf
          have hfr : finishRaw0 ([] : List Nat) = [] := rfl
          rw [hfr, List.nil_append]
          omega
        · have h1 := finishRaw0_length buf hbuf
          have hpos : 1 ≤ buf.length := List.length_pos.mpr hbuf
          rw [List.length_append, h1]
          omega
      · by_cases h127 : buf.length = 127
        · rw [pbLoop, if_neg heq, if_pos h127]
          have hbuf : buf ≠ [] := by
            intro h
            rw [h] at h127
            simp at h127
          have h1 := finishRaw0_length buf hbuf
          have h2 := ih (.raw [cur])
          simp only [pendingLen, List.length_cons, List.length_nil] at h2 ⊢
          rw [List.length_append, h1]
          omega
        · rw [pbLoop, if_neg heq, if_neg h127]
          have h2 := ih (.raw (buf ++ [cur]))
          simp only [pendingLen, List.length_cons, List.length_append,
            List.length_nil] at h2 ⊢
          omega
    | next :: rest, .rle c =>
      by_cases heq : cur = next
      · by_cases h127 : c = 127
        · rw [pbLoop, if_pos heq, if_pos h127]
          have h2 := ih (.rle 1)
          simp only [pendingLen, List.length_cons] at h2 ⊢
          simp only [finishRle0, List.length_append, List.length_cons, List.length_nil]
          omega
        · rw [pbLoop, if_pos heq, if_neg h127]
          have h2 := ih (.rle (c + 1))
          simp only [pendingLen, List.length_cons] at h2 ⊢
          omega
      · rw [pbLoop, if_neg heq]
        have h2 := ih (.raw [])
        simp only [pendingLen, List.length_cons, List.length_nil] at h2 ⊢
        simp only [finishRle0, List.length_append, List.length_cons, List.length_nil]
        omega

/-- The PackBits encoding of `data` is at most twice as long as `data`. -/
theorem packbitsEncode_length (data : List Nat) :
    (packbitsEncode data).length ≤ 2 * data.length := by
  match data with
  | [] => simp [packbitsEncode]
  | [b] => simp [packbitsEncode]
  | a :: b :: rest =>
    rw [packbitsEncode]
    have := pbLoop_length (a :: b :: rest) (.raw [])
    simpa [pendingLen] using this

/-- PackBits is lossless: decoding an encoding gives back the input. -/
theorem packbits_roundtrip (data : List Nat) :
    packbitsDecode (packbitsEncode data) = data := by
  match data with
  | [] =>
    rw [packbitsEncode, packbitsDecode_nil]
  | [b] =>
    rw [packbitsEncode, packbitsDecode_cons]
    simp [packbitsDecode_nil]
  | a :: b :: rest =>
    rw [packbitsEncode]
    have := pbLoop_decode (a :: b :: rest) (.raw []) (by simp) (by simp [stateOk])
    simpa [pending] using this

/-!
## Data model: tape table, error flags, status frames

`TapeInfo` is the namedtuple `(lmargin, printarea, rmargin, width)`; the
no-media entry holds `None` in every field, so the fields are `Option`s.
Tape widths are the exact binary floats `3.5, 6.0, …`, represented in `ℚ`.
-/

structure TapeInfo where
  lmargin : Option Nat
  printarea : Option Nat
  rmargin : Option Nat
  width : Option ℚ
deriving DecidableEq, Repr

/-- The `MEDIA_WIDTH_INFO` dict: media-width code to tape geometry. -/
def MEDIA_WIDTH_INFO (code : Nat) : Option TapeInfo :=
  if code = 0 then some ⟨none, none, none, none⟩
  else if code = 4 then some ⟨some 52, some 24, some 52, some (7 / 2 : ℚ)⟩
  else if code = 6 then some ⟨some 48, some 32, some 48, some 6⟩
  else if code = 9 then some ⟨some 39, some 50, some 39, some 9⟩
  else if code = 12 then some ⟨some 29, some 70, some 29, some 12⟩
  else if code = 18 then some ⟨some 8, some 112, some 8, some 18⟩
  else if code = 24 then some ⟨some 0, some 128, some 0, some 24⟩
  else none

/-- The `Errors` object: one named boolean per `ERROR_MASK` bit position,
computed (as in `Errors.__init__`) from `value = byte1 | (byte2 << 8)` by
testing `value & (1 << offset)`. -/
structure Errors where
  no_media : Bool
  cutter_jam : Bool
  weak_battery : Bool
  hv_adapter : Bool
  replace_media : Bool
  cover_open : Bool
  overheating : Bool
deriving DecidableEq, Repr

def Errors.ofBytes (byte1 byte2 : Nat) : Errors :=
  let value := byte1 ||| (byte2 <<< 8)
  { no_media := value &&& (1 <<< 0) != 0
    cutter_jam := value &&& (1 <<< 2) != 0
    weak_battery := value &&& (1 <<< 3) != 0
    hv_adapter := value &&& (1 <<< 6) != 0
    replace_media := value &&& (1 <<< 8) != 0
    cover_open := value &&& (1 <<< 12) != 0
    overheating := value &&& (1 <<< 13) != 0 }

/-- `Errors.any()`. -/
def Errors.anyFlag (e : Errors) : Bool :=
  e.no_media || e.cutter_jam || e.weak_battery || e.hv_adapter ||
    e.replace_media || e.cover_open || e.overheating

/-- The decoded `Status`: the fourteen single bytes read at the
`INFO_OFFSETS` positions, plus the derived error flags and tape info. -/
structure Status where
  printhead_mark : Nat
  model_code : Nat
  error_1 : Nat
  error_2 : Nat
  media_width : Nat
  media_type : Nat
  mode : Nat
  media_length : Nat
  status_type : Nat
  phase_type : Nat
  phase_number_hi : Nat
  phase_number_lo : Nat
  notify_no : Nat
  hardware_settings : Nat
  errors : Errors
  tape_info : TapeInfo
deriving DecidableEq, Repr

inductive StatusErr where
  | noResponse        -- IOError "No Response from printer"
  | invalidResponse   -- IOError "Invalid Response from printer"
  | unknownTapeWidth  -- KeyError from the MEDIA_WIDTH_INFO lookup
deriving DecidableEq, Repr

/-- `Status.__init__`: read each `INFO_OFFSETS` byte from the frame, build
the `Errors` from bytes 8 and 9, and look up `MEDIA_WIDTH_INFO` on byte 10
(the lookup is the only failing step; its `KeyError` is the
`UnknownTapeWidth` failure).  Callers guarantee 32 bytes, so reads use a
default that is never hit there. -/
def statusDecode (msg : List Nat) : Except StatusErr Status :=
  match MEDIA_WIDTH_INFO (msg.getD 10 0) with
  | none => .error .unknownTapeWidth
  | some ti =>
    .ok { printhead_mark := msg.getD 0 0
          model_code := msg.getD 4 0
          error_1 := msg.getD 8 0
          error_2 := msg.getD 9 0
          media_width := msg.getD 10 0
          media_type := msg.getD 11 0
          mode := msg.getD 15 0
          media_length := msg.getD 17 0
          status_type := msg.getD 18 0
          phase_type := msg.getD 19 0
          phase_number_hi := msg.getD 20 0
          phase_number_lo := msg.getD 21 0
          notify_no := msg.getD 22 0
          hardware_settings := msg.getD 26 0
          errors := Errors.ofBytes (msg.getD 8 0) (msg.getD 9 0)
          tape_info := ti }

/-- `Status.ready()`. -/
def Status.ready (s : Status) : Bool :=
  !s.errors.anyFlag

/-- `P700.get_status`, as a function of the bytes the transport returned for
the 32-byte status read (the write of the status request is modelled in the
trace semantics below). -/
def get_status (data : List Nat) : Except StatusErr Status :=
  if data.length = 0 then .error .noResponse
  else if data.length < 32 then .error .invalidResponse
  else statusDecode data

/-!
## Line encoder
-/

inductive EncodeErr where
  | overflow     -- OverflowError from `int.to_bytes(16, 'big')`
  | structErr    -- struct.error from `struct.pack("<H", …)`
  | typeErr      -- TypeError: shifting by the no-media tape's `None` margin
deriving DecidableEq, Repr

/-- `encode_line(bitmap_line, tape_info)`: interpret the scanline as a
big-endian integer, shift left by the tape's right margin, serialize to
exactly 16 bytes (OverflowError if it does not fit), PackBits-compress, and
prepend the 2-byte little-endian length of the compressed payload. -/
def encode_line (bitmap_line : List Nat) (tape_info : TapeInfo) :
    Except EncodeErr (List Nat) :=
  match tape_info.rmargin with
  | none => .error .typeErr
  | some r =>
    let line_int := fromBytesBE bitmap_line
    let shifted := line_int <<< r
    if shifted < 256 ^ 16 then
      let padded := natToBytesBE shifted 16
      let compressed := packbitsEncode padded
      if compressed.length < 2 ^ 16 then
        .ok (toBytesLE2 compressed.length ++ compressed)
      else .error .structErr
    else .error .overflow

/-- The encoding step as the specification words it (§4.3 / claim C2): the
2-byte little-endian count of the compressed payload, followed by the
PackBits compression of the 16-byte big-endian zero-padded serialization of
the margin-shifted scanline integer. -/
def spec_encode_line (line : List Nat) (r : Nat) : List Nat :=
  toBytesLE2 (packbitsEncode (natToBytesBE (fromBytesBE line <<< r) 16)).length ++
    packbitsEncode (natToBytesBE (fromBytesBE line <<< r) 16)

/-!
## Job controller

`P700._raw_print` is modelled as a deterministic trace of events over a
discrete clock whose tick is the 100ms poll/sleep interval.  The shared
`self.status`, written by the background poller thread, is abstracted as a
function `stream : Nat → Status` giving its value at each tick; writes take
no ticks, and each iteration of a `while True: … time.sleep(0.1) …` wait
loop advances the clock by one tick.  The 20-second deadline is 200 sleeps,
so a wait observes the shared status at ticks `t, t+1, …, t+200` before
timing out.  Thread start, the `self._check_print_status = False` stop
signal, and `status_thread.join()` appear as explicit events, and the
`try/finally` of `_raw_print` is reflected by appending the two shutdown
events to the body's trace on every outcome.
-/

inductive Ev where
  | write (bytes : List Nat)
  | pollerStart
  | pollerStop
  | pollerJoin
deriving DecidableEq, Repr

inductive PrintErr where
  | pageAdvanceTimeout       -- TimeoutError: next page's receiving state
  | printCompletionTimeout   -- TimeoutError: printing complete state
  | encodeFailed (e : EncodeErr)
  | printerNotReady          -- IOError "Printer is not ready"
  | statusFailed (e : StatusErr)
deriving DecidableEq, Repr

/-- `P700.build_byte(bits)`: pack eight named booleans into one byte. -/
def build_byte (bits : Nat → Bool) : Nat :=
  (List.range 8).foldl (fun acc i => acc * 2 + (if bits (7 - i) then 1 else 0)) 0

/-- Command bytes written by the protocol methods. -/
def statusRequestCmd : List Nat := [27, 105, 83]       -- b'\x1B\x69\x53'
def initCmd : List Nat := [27, 64]               -- b'\x1b\x40'
def rasterModeCmd : List Nat := [27, 105, 97, 1]       -- b'\x1B\x69\x61\x01'
def lastPageEndCmd : List Nat := [26]                  -- b'\x1A'
def nextPageCmd : List Nat := [12]                     -- b'\x0C'
def emptyRowCmd : List Nat := [90]                     -- b'\x5A'

/-- `set_various_mode(cut=True, mirror=False)`. -/
def variousModeCmd (cut : Bool := true) (mirror : Bool := false) : List Nat :=
  [27, 105, 77] ++ [build_byte (fun i => if i = 6 then cut else if i = 7 then mirror else false)]

/-- `set_advanced_mode(no_chain_printing=True, special_tape=False,
no_buffer_clearing=False)`. -/
def advancedModeCmd (no_chain_printing : Bool := true) (special_tape : Bool := false)
    (no_buffer_clearing : Bool := false) : List Nat :=
  [27, 105, 75] ++ [build_byte (fun i =>
    if i = 3 then no_chain_printing
    else if i = 4 then special_tape
    else if i = 7 then no_buffer_clearing
    else false)]

/-- `set_margin(margin)`: `margin.to_bytes(2, 'little')`. -/
def marginCmd (margin : Nat) : List Nat :=
  [27, 105, 100] ++ toBytesLE2 margin

/-- `set_compression_mode(tiff=True)`. -/
def compressionModeCmd (tiff : Bool := true) : List Nat :=
  [77] ++ [build_byte (fun i => if i = 1 then tiff else false)]

/-- `connect()`: 100 zero bytes then the initialize code. -/
def connectEvs : List Ev :=
  [Ev.write (List.replicate 100 0), Ev.write initCmd]

/-- The five configuration writes of `_raw_print`, in source order. -/
def configEvs : List Ev :=
  [Ev.write rasterModeCmd, Ev.write (variousModeCmd), Ev.write (advancedModeCmd),
   Ev.write (marginCmd 14), Ev.write (compressionModeCmd)]

/-- The condition the page-advance wait loop tests on the shared status:
`status_type == 6 and phase_type == 0` (raw bytes). -/
def advanceCond (s : Status) : Bool :=
  (s.status_type == 6) && (s.phase_type == 0)

/-- The condition claimed by the specification for the page-advance wait:
`status_type == PHASE_CHANGE (6)` and the 16-bit `phase_number == 0`.
Modelled from the spec's words, for comparison with `advanceCond`. -/
def specAdvanceCond (s : Status) : Bool :=
  (s.status_type == 6) && (((s.phase_number_hi <<< 8) ||| s.phase_number_lo) == 0)

/-- The condition the end-of-job wait loop tests: `status_type == 1`. -/
def completeCond (s : Status) : Bool :=
  s.status_type == 1

/-- One bounded wait loop of `_raw_print`: test the condition on the shared
status, sleep one tick, repeat; `fuel` counts the remaining sleeps before
the deadline check fires (`fuel = 200` for the 20-second deadline).  Returns
the tick at which the condition was first observed, or `none` on timeout. -/
def waitUntil (cond : Status → Bool) (stream : Nat → Status) :
    Nat → Nat → Option Nat
  | 0, t => if cond (stream t) then some t else none
  | fuel + 1, t => if cond (stream t) then some t else waitUntil cond stream fuel (t + 1)

/-- The inner `for line in documents[i]` loop: a raster-transfer write
(`b'G' + encode_line(...)`) per scanline; an encoding failure aborts, the
writes already made staying in the trace. -/
def writeLines (tape : TapeInfo) : List (List Nat) → List Ev × Option EncodeErr
  | [] => ([], none)
  | line :: rest =>
    match encode_line line tape with
    | .error e => ([], some e)
    | .ok enc =>
      match writeLines tape rest with
      | (evs, err) => (Ev.write (71 :: enc) :: evs, err)

/-- The `for i in range(len(documents))` loop of `_raw_print`: per page, the
scanline writes, the empty-row write, and — when more pages remain — the
next-page write followed by the page-advance wait.  Returns the trace, the
clock after the loop, and the first failure if any. -/
def printPages (stream : Nat → Status) (tape : TapeInfo) :
    Nat → List (List (List Nat)) → List Ev × Nat × Option PrintErr
  | t, [] => ([], t, none)
  | t, page :: rest =>
    match writeLines tape page with
    | (levs, some e) => (levs, t, some (.encodeFailed e))
    | (levs, none) =>
      match rest with
      | [] => (levs ++ [Ev.write emptyRowCmd], t, none)
      | _ :: _ =>
        match waitUntil advanceCond stream 200 t with
        | none => (levs ++ [Ev.write emptyRowCmd, Ev.write nextPageCmd], t,
            some .pageAdvanceTimeout)
        | some t2 =>
          match printPages stream tape t2 rest with
          | (evs2, t3, err) =>
            (levs ++ [Ev.write emptyRowCmd, Ev.write nextPageCmd] ++ evs2, t3, err)

/-- The `try` body of `_raw_print`: configuration writes, the page loop,
then the end-of-job marker and the completion wait. -/
def rawPrintBody (stream : Nat → Status) (tape : TapeInfo)
    (documents : List (List (List Nat))) : List Ev × Option PrintErr :=
  match printPages stream tape 0 documents with
  | (evs, _, some e) => (configEvs ++ evs, some e)
  | (evs, t, none) =>
    match waitUntil completeCond stream 200 t with
    | none => (configEvs ++ evs ++ [Ev.write lastPageEndCmd], some .printCompletionTimeout)
    | some _ => (configEvs ++ evs ++ [Ev.write lastPageEndCmd], none)

/-- `P700._raw_print`: connect, start the poller, run the body, and — by the
`finally` block — flip the stop flag and join the poller thread on every
outcome. -/
def rawPrint (stream : Nat → Status) (tape : TapeInfo)
    (documents : List (List (List Nat))) : List Ev × Option PrintErr :=
  (connectEvs ++ [Ev.pollerStart] ++ (rawPrintBody stream tape documents).1 ++
      [Ev.pollerStop, Ev.pollerJoin],
    (rawPrintBody stream tape documents).2)

/-- `P700.print_label`: query the status (one status-request write, answered
by `frame`), require `ready()`, then run `_raw_print` on the rendered pages
and finish with a second status query (answered by `frame2`).  Rendering is
the external collaborator producing `documents`. -/
def printLabel (frame : List Nat) (stream : Nat → Status)
    (documents : List (List (List Nat))) (frame2 : List Nat) :
    List Ev × Option PrintErr :=
  match get_status frame with
  | .error e => ([Ev.write statusRequestCmd], some (.statusFailed e))
  | .ok s =>
    if s.ready then
      match rawPrint stream s.tape_info documents with
      | (evs, some e) => (Ev.write statusRequestCmd :: evs, some e)
      | (evs, none) =>
        match get_status frame2 with
        | .error e =>
          (Ev.write statusRequestCmd :: evs ++ [Ev.write statusRequestCmd],
            some (.statusFailed e))
        | .ok _ =>
          (Ev.write statusRequestCmd :: evs ++ [Ev.write statusRequestCmd], none)
    else
      ([Ev.write statusRequestCmd], some .printerNotReady)

/-!
## Shared lemmas about the encoder
-/

/-- The compressed payload of a 16-byte padded line always fits the 2-byte
length prefix, so on a fitting input `encode_line` takes its success branch
and returns exactly the length-prefixed compression of the padded buffer. -/
theorem encode_line_ok_of_fit (line : List Nat) (tape : TapeInfo) (r : Nat)
    (hr : tape.rmargin = some r) (hfit : fromBytesBE line <<< r < 256 ^ 16) :
    encode_line line tape = .ok (spec_encode_line line r) := by
  have hlen := packbitsEncode_length (natToBytesBE (fromBytesBE line <<< r) 16)
  rw [natToBytesBE_length] at hlen
  rw [encode_line, hr]
  simp only [if_pos hfit, if_pos (show (packbitsEncode
    (natToBytesBE (fromBytesBE line <<< r) 16)).length < 2 ^ 16 by omega)]
  rfl

/-- Concrete fixtures used by several witnesses. -/
def tapeOf24 : TapeInfo := ⟨some 0, some 128, some 0, some 24⟩
def tapeOf12 : TapeInfo := ⟨some 29, some 70, some 29, some 12⟩

/-- Claim C2: for every scanline whose bits, read as a big-endian integer
and left-shifted by `tape.right_margin`, fit in 16 bytes, `encode_line`
returns exactly the 2-byte little-endian length of the PackBits compression
of the 16-byte big-endian zero-padded serialization of the shifted value,
followed by that compressed payload. -/
theorem C2_encode_line_format (line : List Nat) (tape : TapeInfo) (r : Nat)
    (hr : tape.rmargin = some r) (hfit : fromBytesBE line <<< r < 256 ^ 16) :
    encode_line line tape = .ok (spec_encode_line line r) :=
  encode_line_ok_of_fit line tape r hr hfit

theorem C2_witness :
    encode_line [170] tapeOf24 = .ok (spec_encode_line [170] 0) :=
  C2_encode_line_format [170] tapeOf24 0 rfl (by decide)

/-- From a successful `encode_line` run, the shifted value fits in 16 bytes
and the output is the length-prefixed compression of the padded buffer. -/
theorem encode_line_ok_elim (line : List Nat) (tape : TapeInfo) (r : Nat) (out : List Nat)
    (hr : tape.rmargin = some r) (h : encode_line line tape = .ok out) :
    fromBytesBE line <<< r < 256 ^ 16 ∧
      out = toBytesLE2 (packbitsEncode (natToBytesBE (fromBytesBE line <<< r) 16)).length ++
        packbitsEncode (natToBytesBE (fromBytesBE line <<< r) 16) := by
  rw [encode_line, hr] at h
  simp only at h
  split at h
  next hfit =>
    split at h
    next hlen =>
      refine ⟨hfit, ?_⟩
      injection h with h2
      rw [h2]
    next hlen => exact absurd h (by simp)
  next hfit => exact absurd h (by simp)

/-- Claim C3 counterexample: for the one-byte scanline `[1]` on 12mm tape
(right margin 29), decompressing the payload and then reversing the shift
does not reproduce the step-3 padded buffer (it reproduces the pre-shift
value instead), so the claim's composite equation fails. -/
theorem C3_counterexample :
    encode_line [1] tapeOf12 = .ok [6, 0, 245, 0, 0, 32, 254, 0]
    ∧ natToBytesBE (fromBytesBE (packbitsDecode
        (List.drop 2 [6, 0, 245, 0, 0, 32, 254, 0])) >>> 29) 16 ≠
      natToBytesBE (fromBytesBE [1] <<< 29) 16 := by
  constructor
  · rfl
  · have hpb : packbitsDecode (List.drop 2 [6, 0, 245, 0, 0, 32, 254, 0]) =
        natToBytesBE (fromBytesBE [1] <<< 29) 16 := by
      have : (List.drop 2 [6, 0, 245, 0, 0, 32, 254, 0] : List Nat) =
          packbitsEncode (natToBytesBE (fromBytesBE [1] <<< 29) 16) := by rfl
      rw [this, packbits_roundtrip]
    rw [hpb]
    decide

/-- Claim C3, amended: for every successful `encode_line(L, T)`,
decompressing the compressed payload reproduces exactly the 16-byte padded
(shifted) buffer of step 3, and shifting that buffer's value right by
`T.right_margin` recovers the original scanline integer; determinism and
absence of side effects are inherent to the pure functional model. -/
theorem C3_round_trip (line : List Nat) (tape : TapeInfo) (r : Nat) (out : List Nat)
    (hr : tape.rmargin = some r) (h : encode_line line tape = .ok out) :
    packbitsDecode (out.drop 2) = natToBytesBE (fromBytesBE line <<< r) 16
    ∧ fromBytesBE (natToBytesBE (fromBytesBE line <<< r) 16) >>> r = fromBytesBE line := by
  obtain ⟨hfit, hout⟩ := encode_line_ok_elim line tape r out hr h
  constructor
  · rw [hout]
    rw [show (2 : Nat) = (toBytesLE2 (packbitsEncode
      (natToBytesBE (fromBytesBE line <<< r) 16)).length).length from rfl]
    rw [List.drop_left, packbits_roundtrip]
  · rw [fromBytesBE_natToBytesBE 16 _ hfit]
    rw [Nat.shiftLeft_eq, Nat.shiftRight_eq_div_pow,
      Nat.mul_div_cancel _ (Nat.pos_pow_of_pos r (by norm_num))]

theorem C3_witness :
    packbitsDecode (List.drop 2 [6, 0, 245, 0, 0, 32, 254, 0]) =
        natToBytesBE (fromBytesBE [1] <<< 29) 16
    ∧ fromBytesBE (natToBytesBE (fromBytesBE [1] <<< 29) 16) >>> 29 = fromBytesBE [1] :=
  C3_round_trip [1] tapeOf12 29 [6, 0, 245, 0, 0, 32, 254, 0] rfl rfl

/-- Claim C4 counterexample: a 17-byte scanline with a leading nonzero byte
makes the shifted integer exceed 16 bytes, and `encode_line` fails with the
serialization overflow instead of truncating to 16 bytes. -/
theorem C4_counterexample :
    encode_line (255 :: List.replicate 16 0) tapeOf24 = .error .overflow := by
  rfl

/-- Claim C4, amended: `encode_line` is not total — when the shifted
scanline integer exceeds the 16-byte head width, `int.to_bytes(16, 'big')`
raises OverflowError (there is no truncation); smaller values are
zero-extended and succeed, and the `EncodingOverflow` failure of the 2-byte
length prefix is unreachable because a 16-byte buffer compresses to at most
32 bytes. -/
theorem C4_overflow_behavior (line : List Nat) (tape : TapeInfo) (r : Nat)
    (hr : tape.rmargin = some r) :
    (fromBytesBE line <<< r < 256 ^ 16 → ∃ out, encode_line line tape = .ok out)
    ∧ (256 ^ 16 ≤ fromBytesBE line <<< r → encode_line line tape = .error .overflow)
    ∧ encode_line line tape ≠ .error .structErr := by
  refine ⟨?_, ?_, ?_⟩
  · intro hfit
    exact ⟨spec_encode_line line r, encode_line_ok_of_fit line tape r hr hfit⟩
  · intro hbig
    rw [encode_line, hr]
    simp only [if_neg (show ¬(fromBytesBE line <<< r < 256 ^ 16) by omega)]
  · by_cases hfit : fromBytesBE line <<< r < 256 ^ 16
    · rw [encode_line_ok_of_fit line tape r hr hfit]
      simp
    · rw [encode_line, hr]
      simp only [if_neg hfit]
      simp

theorem C4_witness :
    (∃ out, encode_line [5] tapeOf24 = .ok out)
    ∧ encode_line (255 :: List.replicate 16 0) tapeOf24 = .error .overflow
    ∧ encode_line [5] tapeOf24 ≠ .error .structErr :=
  ⟨(C4_overflow_behavior [5] tapeOf24 0 rfl).1 (by decide),
   (C4_overflow_behavior (255 :: List.replicate 16 0) tapeOf24 0 rfl).2.1 (by decide),
   (C4_overflow_behavior [5] tapeOf24 0 rfl).2.2⟩

/-!
## Status decoder claims
-/

/-- Claim C5: the status read fails `NoResponse` on empty input,
`InvalidResponse` on lengths 1..31, and on exactly 32 bytes proceeds without
any length-related failure. -/
theorem C5_status_lengths (data : List Nat) :
    (data.length = 0 → get_status data = .error .noResponse)
    ∧ (1 ≤ data.length → data.length ≤ 31 → get_status data = .error .invalidResponse)
    ∧ (data.length = 32 →
        get_status data ≠ .error .noResponse ∧ get_status data ≠ .error .invalidResponse) := by
  refine ⟨?_, ?_, ?_⟩
  · intro h
    rw [get_status, if_pos h]
  · intro h1 h2
    rw [get_status, if_neg (by omega), if_pos (by omega)]
  · intro h
    rw [get_status, if_neg (by omega), if_neg (by omega)]
    rw [statusDecode]
    cases MEDIA_WIDTH_INFO (data.getD 10 0) <;> simp

theorem C5_witness :
    get_status [] = .error .noResponse
    ∧ get_status (List.replicate 5 0) = .error .invalidResponse
    ∧ get_status (List.replicate 32 0) ≠ .error .invalidResponse :=
  ⟨(C5_status_lengths []).1 rfl,
   (C5_status_lengths (List.replicate 5 0)).2.1 (by decide) (by decide),
   ((C5_status_lengths (List.replicate 32 0)).2.2 (by decide)).2⟩

/-- `value & (1 << k)` is nonzero exactly when bit `k` of `value` is set. -/
theorem and_one_shift (value k : Nat) :
    (value &&& (1 <<< k) != 0) = value.testBit k := by
  rw [Nat.one_shiftLeft, Nat.and_two_pow]
  cases h : value.testBit k
  · simp
  · have hpow : (2 : Nat) ^ k ≠ 0 := by positivity
    simp [hpow]

/-- A successful `get_status` means a successful decode of the frame's
fields; in particular the error flags come from bytes 8 and 9. -/
theorem get_status_ok_errors (frame : List Nat) (s : Status)
    (h : get_status frame = .ok s) :
    s.errors = Errors.ofBytes (frame.getD 8 0) (frame.getD 9 0) := by
  rw [get_status] at h
  split at h
  · exact absurd h (by simp)
  split at h
  · exact absurd h (by simp)
  rw [statusDecode] at h
  split at h
  · exact absurd h (by simp)
  · injection h with h2
    rw [← h2]

/-- `Errors.anyFlag` in terms of the documented bit positions of the 16-bit
error value. -/
theorem anyFlag_iff_bits (b1 b2 : Nat) :
    (Errors.ofBytes b1 b2).anyFlag = true ↔
      ∃ i ∈ ([0, 2, 3, 6, 8, 12, 13] : List Nat),
        (b1 ||| (b2 <<< 8)).testBit i = true := by
  simp only [Errors.ofBytes, Errors.anyFlag, and_one_shift]
  simp only [List.mem_cons, List.not_mem_nil, or_false, Bool.or_eq_true]
  constructor
  · intro h
    rcases h with ((((((h | h) | h) | h) | h) | h) | h)
    · exact ⟨0, by tauto⟩
    · exact ⟨2, by tauto⟩
    · exact ⟨3, by tauto⟩
    · exact ⟨6, by tauto⟩
    · exact ⟨8, by tauto⟩
    · exact ⟨12, by tauto⟩
    · exact ⟨13, by tauto⟩
  · rintro ⟨i, hmem, hbit⟩
    rcases hmem with rfl | rfl | rfl | rfl | rfl | rfl | rfl <;> tauto

/-- Claim C6: a decoded status is `ready()` exactly when none of the bits
0, 2, 3, 6, 8, 12, 13 is set in the 16-bit value formed from frame bytes 8
and 9 (bit 0 the LSB of byte 8), and `Errors.any()` holds exactly when some
such bit is set. -/
theorem C6_ready_iff_bits (frame : List Nat) (s : Status)
    (h : get_status frame = .ok s) :
    (s.ready = true ↔
      ∀ i ∈ ([0, 2, 3, 6, 8, 12, 13] : List Nat),
        ((frame.getD 8 0) ||| ((frame.getD 9 0) <<< 8)).testBit i = false)
    ∧ (s.errors.anyFlag = true ↔
      ∃ i ∈ ([0, 2, 3, 6, 8, 12, 13] : List Nat),
        ((frame.getD 8 0) ||| ((frame.getD 9 0) <<< 8)).testBit i = true) := by
  have herr := get_status_ok_errors frame s h
  have hany := anyFlag_iff_bits (frame.getD 8 0) (frame.getD 9 0)
  rw [← herr] at hany
  refine ⟨?_, hany⟩
  have hready : s.ready = true ↔ s.errors.anyFlag = false := by
    rw [Status.ready]
    cases s.errors.anyFlag <;> simp
  have hfalse : s.errors.anyFlag = false ↔ ¬(s.errors.anyFlag = true) := by
    cases s.errors.anyFlag <;> simp
  rw [hready, hfalse, hany]
  push_neg
  constructor
  · intro hno i hi
    cases hbit : ((frame.getD 8 0) ||| ((frame.getD 9 0) <<< 8)).testBit i
    · rfl
    · exact absurd hbit (hno i hi)
  · intro hall i hi
    rw [hall i hi]
    simp

/-- The status decoded from an all-zero 32-byte frame. -/
def zeroFrameStatus : Status :=
  { printhead_mark := 0, model_code := 0, error_1 := 0, error_2 := 0,
    media_width := 0, media_type := 0, mode := 0, media_length := 0,
    status_type := 0, phase_type := 0, phase_number_hi := 0,
    phase_number_lo := 0, notify_no := 0, hardware_settings := 0,
    errors := Errors.ofBytes 0 0, tape_info := ⟨none, none, none, none⟩ }

theorem C6_witness : zeroFrameStatus.ready = true :=
  (C6_ready_iff_bits (List.replicate 32 0) zeroFrameStatus rfl).1.mpr (by decide)

/-- Claim C7: the media-width lookup gives `(29, 70, 29, 12.0)` for code 12
and the all-undefined entry for code 0, and any 32-byte frame whose
media-width byte is outside `{0, 4, 6, 9, 12, 18, 24}` makes the decode
fail `UnknownTapeWidth`. -/
theorem C7_tape_lookup :
    MEDIA_WIDTH_INFO 12 = some ⟨some 29, some 70, some 29, some 12⟩
    ∧ MEDIA_WIDTH_INFO 0 = some ⟨none, none, none, none⟩
    ∧ ∀ frame : List Nat, frame.length = 32 →
        frame.getD 10 0 ∉ ([0, 4, 6, 9, 12, 18, 24] : List Nat) →
        get_status frame = .error .unknownTapeWidth := by
  refine ⟨rfl, rfl, ?_⟩
  intro frame hlen hmem
  simp only [List.mem_cons, List.not_mem_nil, or_false, not_or] at hmem
  obtain ⟨h0, h4, h6, h9, h12, h18, h24⟩ := hmem
  rw [get_status, if_neg (by omega), if_neg (by omega), statusDecode]
  rw [show MEDIA_WIDTH_INFO (frame.getD 10 0) = none by
    rw [MEDIA_WIDTH_INFO, if_neg h0, if_neg h4, if_neg h6, if_neg h9,
      if_neg h12, if_neg h18, if_neg h24]]

theorem C7_witness :
    get_status (List.replicate 10 0 ++ [3] ++ List.replicate 21 0) =
      .error .unknownTapeWidth :=
  C7_tape_lookup.2.2 (List.replicate 10 0 ++ [3] ++ List.replicate 21 0)
    (by decide) (by decide)

/-- Claim C10: decoding a 32-byte frame depends only on the single bytes at
the fourteen documented offsets; frames agreeing there decode identically
(in particular the printhead-mark and model-code fields are read as one
byte each). -/
theorem C10_offsets_only (f1 f2 : List Nat)
    (h1 : f1.length = 32) (h2 : f2.length = 32)
    (hag : ∀ i ∈ ([0, 4, 8, 9, 10, 11, 15, 17, 18, 19, 20, 21, 22, 26] : List Nat),
      f1.getD i 0 = f2.getD i 0) :
    get_status f1 = get_status f2 := by
  simp only [List.mem_cons, List.not_mem_nil, or_false, forall_eq_or_imp, forall_eq] at hag
  obtain ⟨e0, e4, e8, e9, e10, e11, e15, e17, e18, e19, e20, e21, e22, e26⟩ := hag
  rw [get_status, get_status, if_neg (by omega), if_neg (by omega),
    if_neg (by omega), if_neg (by omega), statusDecode, statusDecode,
    e0, e4, e8, e9, e10, e11, e15, e17, e18, e19, e20, e21, e22, e26]

theorem C10_witness :
    get_status (List.replicate 32 0) = get_status (0 :: 99 :: List.replicate 30 0) :=
  C10_offsets_only (List.replicate 32 0) (0 :: 99 :: List.replicate 30 0)
    (by decide) (by decide) (by decide)

/-!
## Job controller claims
-/

/-- If the condition fails at every observed tick of the window (one check
per sleep plus the initial one), the wait loop times out. -/
theorem waitUntil_none (cond : Status → Bool) (stream : Nat → Status) :
    ∀ fuel t0 : Nat, (∀ d, d ≤ fuel → cond (stream (t0 + d)) = false) →
      waitUntil cond stream fuel t0 = none := by
  intro fuel
  induction fuel with
  | zero =>
    intro t0 h
    have h0 := h 0 (by omega)
    rw [Nat.add_zero] at h0
    simp [waitUntil, h0]
  | succ f ih =>
    intro t0 h
    have h0 := h 0 (by omega)
    rw [Nat.add_zero] at h0
    rw [waitUntil, if_neg (by simp [h0])]
    apply ih
    intro d hd
    rw [show t0 + 1 + d = t0 + (d + 1) by omega]
    exact h (d + 1) (by omega)

/-- Claim C9: on every outcome of `_raw_print` — success or any failure —
the trace starts the poller and ends by flipping the stop signal and
joining the poller thread, in that order; the poller is never left
running. -/
theorem C9_poller_shutdown (stream : Nat → Status) (tape : TapeInfo)
    (documents : List (List (List Nat))) :
    Ev.pollerStart ∈ (rawPrint stream tape documents).1
    ∧ ∃ pre, (rawPrint stream tape documents).1 = pre ++ [Ev.pollerStop, Ev.pollerJoin] := by
  constructor
  · rw [rawPrint]
    simp
  · exact ⟨connectEvs ++ [Ev.pollerStart] ++ (rawPrintBody stream tape documents).1,
      by rw [rawPrint]⟩

/-- Claim C1, amended: for a multi-page job, after the next-page marker the
controller blocks until the shared status reports `status_type == 6`
(`PHASE_CHANGE`) and `phase_type == 0` — not `phase_number == 0` — checking
once per 100ms tick; if the condition is not observed at any of the 201
checks spanning the 20-second deadline, the job fails with the
page-advance timeout and is aborted. -/
theorem C1_page_advance (stream : Nat → Status) (tape : TapeInfo)
    (p1 p2 : List (List Nat)) (rest : List (List (List Nat))) (evs : List Ev)
    (henc : writeLines tape p1 = (evs, none))
    (hcond : ∀ t, t ≤ 200 → advanceCond (stream t) = false) :
    (rawPrint stream tape (p1 :: p2 :: rest)).2 = some .pageAdvanceTimeout
    ∧ Ev.write nextPageCmd ∈ (rawPrint stream tape (p1 :: p2 :: rest)).1 := by
  have hw : waitUntil advanceCond stream 200 0 = none :=
    waitUntil_none advanceCond stream 200 0 (fun d hd => by
      rw [Nat.zero_add]; exact hcond d hd)
  have hpp : printPages stream tape 0 (p1 :: p2 :: rest) =
      (evs ++ [Ev.write emptyRowCmd, Ev.write nextPageCmd], 0, some .pageAdvanceTimeout) := by
    rw [printPages, henc, hw]
  constructor
  · rw [rawPrint]
    simp only [rawPrintBody, hpp]
  · rw [rawPrint]
    simp only [rawPrintBody, hpp]
    simp

theorem C1_witness :
    (rawPrint (fun _ => zeroFrameStatus) tapeOf24 [[[]], [[]]]).2 = some .pageAdvanceTimeout
    ∧ Ev.write nextPageCmd ∈ (rawPrint (fun _ => zeroFrameStatus) tapeOf24 [[[]], [[]]]).1 :=
  C1_page_advance (fun _ => zeroFrameStatus) tapeOf24 [[]] [[]] []
    [Ev.write [71, 2, 0, 241, 0]] rfl (fun _ _ => rfl)

/-- A status observed when `status_type = 6` and `phase_type = 0` but the
16-bit phase number is 1: the code's wait condition accepts it, the claimed
condition does not. -/
def phaseOneStatus : Status :=
  { printhead_mark := 0, model_code := 0, error_1 := 0, error_2 := 0,
    media_width := 0, media_type := 0, mode := 0, media_length := 0,
    status_type := 6, phase_type := 0, phase_number_hi := 0,
    phase_number_lo := 1, notify_no := 0, hardware_settings := 0,
    errors := Errors.ofBytes 0 0, tape_info := ⟨none, none, none, none⟩ }

/-- Claim C1 counterexample: with the shared status constantly reporting
`status_type = 6`, `phase_type = 0`, `phase_number = 1`, the page-advance
wait unblocks immediately (tick 0) and the two-page job does not fail with
the page-advance timeout, although `phase_number == 0` never holds — the
code tests `phase_type`, not `phase_number`. -/
theorem C1_counterexample :
    advanceCond phaseOneStatus = true
    ∧ specAdvanceCond phaseOneStatus = false
    ∧ waitUntil advanceCond (fun _ => phaseOneStatus) 200 0 = some 0
    ∧ (rawPrint (fun _ => phaseOneStatus) tapeOf24 [[[]], [[]]]).2 ≠
        some .pageAdvanceTimeout := by
  refine ⟨rfl, rfl, rfl, ?_⟩
  intro h
  rw [show (rawPrint (fun _ => phaseOneStatus) tapeOf24 [[[]], [[]]]).2 =
    some .printCompletionTimeout from rfl] at h
  exact absurd (Option.some.inj h) (by simp)

/-- Claim C8, amended: when the freshly queried status is not `ready()`,
`print` fails with the printer-not-ready error before any job write: the
only transport write on this failure path is the status-request command
issued by the query itself; no configuration commands, raster data, or
page markers are transmitted. -/
theorem C8_not_ready (frame : List Nat) (s : Status) (stream : Nat → Status)
    (documents : List (List (List Nat))) (frame2 : List Nat)
    (h : get_status frame = .ok s) (hnr : s.ready = false) :
    printLabel frame stream documents frame2 =
      ([Ev.write statusRequestCmd], some .printerNotReady) := by
  rw [printLabel, h]
  simp only [hnr, Bool.false_eq_true, if_false]

/-- A 32-byte frame with the no-media error bit set (byte 8 = 1). -/
def notReadyFrame : List Nat := List.replicate 8 0 ++ [1] ++ List.replicate 23 0

theorem C8_witness :
    printLabel notReadyFrame (fun _ => zeroFrameStatus) [] [] =
      ([Ev.write statusRequestCmd], some .printerNotReady) :=
  C8_not_ready notReadyFrame
    { printhead_mark := 0, model_code := 0, error_1 := 1, error_2 := 0,
      media_width := 0, media_type := 0, mode := 0, media_length := 0,
      status_type := 0, phase_type := 0, phase_number_hi := 0,
      phase_number_lo := 0, notify_no := 0, hardware_settings := 0,
      errors := Errors.ofBytes 1 0, tape_info := ⟨none, none, none, none⟩ }
    (fun _ => zeroFrameStatus) [] [] rfl rfl

/-- Claim C8 counterexample: on the not-ready failure path the trace is not
empty — the status-request command bytes (a protocol write listed among the
command bytes) are transmitted before the failure, so "no write to the
transport / no command bytes" is false as stated. -/
theorem C8_counterexample :
    printLabel notReadyFrame (fun _ => zeroFrameStatus) [] [] =
      ([Ev.write statusRequestCmd], some .printerNotReady)
    ∧ ([Ev.write statusRequestCmd] : List Ev) ≠ [] :=
  ⟨rfl, by simp⟩

end PT700
